import Mathlib

/-
Verification of the storage engine in src/db.cpp: a single-leaf-node table
over a fixed-size page cache.  Pages are modelled as byte buffers of
PAGE_SIZE bytes; reads and writes outside the allocated PAGE_SIZE bytes
return none (they are undefined behavior in the source).  Machine integers
are modelled as Nat with explicit reductions modulo 2^32 where the source
stores a uint32_t.  Fresh malloc buffers have unspecified contents, so every
operation that may allocate takes the would-be fresh buffer as an explicit
parameter.
-/

set_option maxRecDepth 8000

/-- A page buffer: byte content at each offset.  Only offsets below
PAGE_SIZE are actually allocated; access is bounds-checked by readByte and
writeByte. -/
abbrev Page := Nat → Nat

/-! Layout constants, mirroring the constant block of src/db.cpp
(lines 23-70).  All sizes and offsets are in bytes. -/

def NODE_TYPE_SIZE : Nat := 1
def NODE_TYPE_OFFSET : Nat := 0
def IS_ROOT_SIZE : Nat := 1
def IS_ROOT_OFFSET : Nat := NODE_TYPE_SIZE
def PARENT_POINTER_SIZE : Nat := 4
def PARENT_POINTER_OFFSET : Nat := IS_ROOT_OFFSET + IS_ROOT_SIZE
def COMMON_NODE_HEADER_SIZE : Nat := NODE_TYPE_SIZE + IS_ROOT_SIZE + PARENT_POINTER_SIZE
def LEAF_NODE_NUM_CELLS_SIZE : Nat := 4
def LEAF_NODE_NUM_CELLS_OFFSET : Nat := COMMON_NODE_HEADER_SIZE
def LEAF_NODE_HEADER_SIZE : Nat := COMMON_NODE_HEADER_SIZE + LEAF_NODE_NUM_CELLS_SIZE
def COLUMN_USERNAME_SIZE : Nat := 32
def COLUMN_EMAIL_SIZE : Nat := 255
def ID_SIZE : Nat := 4
def USERNAME_SIZE : Nat := COLUMN_USERNAME_SIZE + 1
def EMAIL_SIZE : Nat := COLUMN_EMAIL_SIZE + 1
def ID_OFFSET : Nat := 0
def USERNAME_OFFSET : Nat := ID_OFFSET + ID_SIZE
def EMAIL_OFFSET : Nat := USERNAME_OFFSET + USERNAME_SIZE
def ROW_SIZE : Nat := ID_SIZE + USERNAME_SIZE + EMAIL_SIZE
def PAGE_SIZE : Nat := 4096
def TABLE_MAX_PAGES : Nat := 100
def LEAF_NODE_KEY_SIZE : Nat := 4
def LEAF_NODE_KEY_OFFSET : Nat := 0
def LEAF_NODE_VALUE_SIZE : Nat := ROW_SIZE
def LEAF_NODE_VALUE_OFFSET : Nat := LEAF_NODE_KEY_OFFSET + LEAF_NODE_KEY_SIZE
def LEAF_NODE_CELL_SIZE : Nat := LEAF_NODE_KEY_SIZE + LEAF_NODE_VALUE_SIZE
def LEAF_NODE_SPACE_FOR_CELLS : Nat := PAGE_SIZE - LEAF_NODE_HEADER_SIZE
def LEAF_NODE_MAX_CELLS : Nat := LEAF_NODE_SPACE_FOR_CELLS / LEAF_NODE_CELL_SIZE

/-- Numeric value of the NodeType enumerator NODE_INTERNAL. -/
def NODE_INTERNAL : Nat := 0

/-- Numeric value of the NodeType enumerator NODE_LEAF. -/
def NODE_LEAF : Nat := 1

/-- The in-memory Row struct: a uint32_t id and two fixed char arrays of
USERNAME_SIZE and EMAIL_SIZE bytes, modelled as byte lists. -/
structure Row where
  id : Nat
  username : List Nat
  email : List Nat
deriving DecidableEq

/-- The Pager struct: observed file length, known page count, the
TABLE_MAX_PAGES-slot in-memory page array (some = resident buffer), and the
on-disk byte contents reachable through the file descriptor. -/
structure Pager where
  file_length : Nat
  numPages : Nat
  pages : Nat → Option Page
  file : Nat → Nat

/-- The Table struct: a pager and the root page number. -/
structure Table where
  pager : Pager
  root_page_num : Nat

/-- The Cursor struct: a page number, a cell index, and the end-of-table
flag. -/
structure Cursor where
  page_num : Nat
  cell_num : Nat
  endOfTable : Bool

/-- The ExecuteResult enumeration. -/
inductive ExecuteResult where
  | EXECUTE_TABLE_FULL : ExecuteResult
  | EXECUTE_SUCCESS : ExecuteResult
deriving DecidableEq

/-- Possible outcomes of get_page: a fatal process exit, an out-of-bounds
access to the pages array (undefined behavior in the source), or a page
buffer together with the possibly updated pager. -/
inductive GetPageResult where
  | fatal : GetPageResult
  | oob : GetPageResult
  | ok : Pager → Page → GetPageResult

/-! Byte-level primitives.  A page buffer holds exactly PAGE_SIZE bytes;
touching any other offset is undefined behavior and yields none. -/

/-- Read one byte of a page; none outside the allocated PAGE_SIZE bytes. -/
def readByte (p : Page) (i : Nat) : Option Nat :=
  if i < PAGE_SIZE then some (p i) else none

/-- Write one byte of a page; none outside the allocated PAGE_SIZE bytes. -/
def writeByte (p : Page) (i v : Nat) : Option Page :=
  if i < PAGE_SIZE then some (fun j => if j = i then v else p j) else none

/-- Read n consecutive bytes starting at off. -/
def readBytes (p : Page) (off : Nat) : Nat → Option (List Nat)
  | 0 => some []
  | n + 1 =>
    match readByte p off, readBytes p (off + 1) n with
    | some b, some bs => some (b :: bs)
    | _, _ => none

/-- Write a list of bytes starting at off. -/
def writeBytes (p : Page) (off : Nat) : List Nat → Option Page
  | [] => some p
  | b :: bs =>
    match writeByte p off b with
    | some p1 => writeBytes p1 (off + 1) bs
    | none => none

/-- The four little-endian bytes of a uint32_t value. -/
def u32_bytes (v : Nat) : List Nat :=
  [v % 256, v / 256 % 256, v / 65536 % 256, v / 16777216 % 256]

/-- The uint32_t value held by four little-endian bytes. -/
def u32_of_bytes (bs : List Nat) : Nat :=
  bs.getD 0 0 + 256 * bs.getD 1 0 + 65536 * bs.getD 2 0 + 16777216 * bs.getD 3 0

/-- Read a uint32_t stored at byte offset off. -/
def read_u32 (p : Page) (off : Nat) : Option Nat :=
  match readBytes p off 4 with
  | some bs => some (u32_of_bytes bs)
  | none => none

/-- Write a uint32_t at byte offset off. -/
def write_u32 (p : Page) (off v : Nat) : Option Page :=
  writeBytes p off (u32_bytes v)

/-! Leaf node accessors (src/db.cpp lines 169-189). -/

/-- Byte address actually used by leaf_node_num_cells.  The source computes
the address as pointer arithmetic on a uint32_t pointer,
(uint32_t *)node + LEAF_NODE_NUM_CELLS_OFFSET, which advances in 4-byte
units, so the dereferenced field sits at byte offset
4 * LEAF_NODE_NUM_CELLS_OFFSET from the start of the page. -/
def leaf_node_num_cells_byte_off : Nat := 4 * LEAF_NODE_NUM_CELLS_OFFSET

/-- Read of *leaf_node_num_cells(node). -/
def read_num_cells (p : Page) : Option Nat :=
  read_u32 p leaf_node_num_cells_byte_off

/-- Write of *leaf_node_num_cells(node). -/
def write_num_cells (p : Page) (v : Nat) : Option Page :=
  write_u32 p leaf_node_num_cells_byte_off v

/-- Byte offset of leaf_node_cell(node, cell_num): char pointer arithmetic,
LEAF_NODE_HEADER_SIZE + cell_num * LEAF_NODE_CELL_SIZE bytes. -/
def leaf_node_cell_off (cell_num : Nat) : Nat :=
  LEAF_NODE_HEADER_SIZE + cell_num * LEAF_NODE_CELL_SIZE

/-- Byte offset of leaf_node_value(node, cell_num): the cell plus the
4-byte key. -/
def leaf_node_value_off (cell_num : Nat) : Nat :=
  leaf_node_cell_off cell_num + LEAF_NODE_KEY_SIZE

/-- initialize_leaf_node (src/db.cpp line 189): sets the cell count to 0
and touches nothing else.  (Name shortened from the source's
initialize_leaf_node.) -/
def init_leaf_node (node : Page) : Option Page :=
  write_num_cells node 0

/-! The pager (src/db.cpp lines 127-167 and 280-308). -/

/-- Replace the resident buffer of page n (models a write through the
shared in-memory page pointer). -/
def update_page (pager : Pager) (n : Nat) (p : Page) : Pager :=
  ⟨pager.file_length, pager.numPages,
    fun k => if k = n then some p else pager.pages k, pager.file⟩

/-- get_page (src/db.cpp lines 127-167).  The source only aborts when
page_num > TABLE_MAX_PAGES; at page_num = TABLE_MAX_PAGES the guard passes
and pages[TABLE_MAX_PAGES] indexes one slot past the end of the
TABLE_MAX_PAGES-element array, which is undefined behavior (oob).
On a cache miss a PAGE_SIZE malloc buffer (the fresh parameter) is filled
from the file where the file extends that far; the tail keeps the
allocator's bytes.  If the page number is at or beyond the known page
count, the count is bumped by one. -/
def get_page (fresh : Page) (pager : Pager) (page_num : Nat) : GetPageResult :=
  if page_num > TABLE_MAX_PAGES then .fatal
  else if page_num = TABLE_MAX_PAGES then .oob
  else
    match pager.pages page_num with
    | some p => .ok pager p
    | none =>
      let num_pages := pager.file_length / PAGE_SIZE +
        (if pager.file_length % PAGE_SIZE = 0 then 0 else 1)
      let page : Page :=
        if page_num ≤ num_pages then
          fun i => if page_num * PAGE_SIZE + i < pager.file_length then
              pager.file (page_num * PAGE_SIZE + i)
            else fresh i
        else fresh
      let pager1 : Pager :=
        ⟨pager.file_length,
          if page_num ≥ pager.numPages then pager.numPages + 1 else pager.numPages,
          fun k => if k = page_num then some page else pager.pages k,
          pager.file⟩
      .ok pager1 page

/-- pager_open (src/db.cpp lines 280-308): records the observed file
length, computes the known page count as file_length / PAGE_SIZE, and
aborts (none) when the length is not a whole number of pages.  All page
slots start empty. -/
def pager_open (file : Nat → Nat) (file_length : Nat) : Option Pager :=
  if file_length % PAGE_SIZE = 0 then
    some ⟨file_length, file_length / PAGE_SIZE, fun _ => none, file⟩
  else none

/-- db_open (src/db.cpp lines 310-329): opens the pager and, when no page
is known yet, materializes page 0 and sets its cell count to 0.  The root
page number of the new Table is zero (value initialization). -/
def db_open (fresh : Page) (file : Nat → Nat) (file_length : Nat) : Option Table :=
  match pager_open file file_length with
  | none => none
  | some pager =>
    if pager.numPages = 0 then
      match get_page fresh pager 0 with
      | .ok pager1 node =>
        match init_leaf_node node with
        | some node1 => some ⟨update_page pager1 0 node1, 0⟩
        | _ => none
      | _ => none
    else some ⟨pager, 0⟩

/-! Cursors (src/db.cpp lines 191-218 and 371-390). -/

/-- tableStart (src/db.cpp lines 191-203): position at cell 0 of the root
page; end-of-table iff the root holds no cells. -/
def tableStart (fresh : Page) (t : Table) : Option (Pager × Cursor) :=
  match get_page fresh t.pager t.root_page_num with
  | .ok pager1 node =>
    match read_num_cells node with
    | some c => some (pager1, ⟨t.root_page_num, 0, c == 0⟩)
    | none => none
  | _ => none

/-- tableEnd (src/db.cpp lines 205-218): position one past the last cell of
the root page; end-of-table unconditionally. -/
def tableEnd (fresh : Page) (t : Table) : Option (Pager × Cursor) :=
  match get_page fresh t.pager t.root_page_num with
  | .ok pager1 node =>
    match read_num_cells node with
    | some c => some (pager1, ⟨t.root_page_num, c, true⟩)
    | none => none
  | _ => none

/-! The record codec (src/db.cpp lines 331-343). -/

/-- serializeRow as a flat byte image: 4 id bytes, the USERNAME_SIZE
username array bytes, the EMAIL_SIZE email array bytes. -/
def serializeRow (r : Row) : List Nat :=
  u32_bytes r.id ++ r.username ++ r.email

/-- deserializeRow from a flat byte image: memcpy of ID_SIZE bytes at
ID_OFFSET, USERNAME_SIZE bytes at USERNAME_OFFSET and EMAIL_SIZE bytes at
EMAIL_OFFSET. -/
def deserializeRow (bs : List Nat) : Row :=
  ⟨u32_of_bytes ((bs.drop ID_OFFSET).take ID_SIZE),
    (bs.drop USERNAME_OFFSET).take USERNAME_SIZE,
    (bs.drop EMAIL_OFFSET).take EMAIL_SIZE⟩

/-- serializeRow writing into a page at byte offset off: three memcpys at
the ID, USERNAME and EMAIL offsets. -/
def serializeRowAt (r : Row) (p : Page) (off : Nat) : Option Page :=
  match writeBytes p (off + ID_OFFSET) (u32_bytes r.id) with
  | some p1 =>
    match writeBytes p1 (off + USERNAME_OFFSET) r.username with
    | some p2 => writeBytes p2 (off + EMAIL_OFFSET) r.email
    | none => none
  | none => none

/-- deserializeRow reading from a page at byte offset off. -/
def deserializeRowAt (p : Page) (off : Nat) : Option Row :=
  match readBytes p (off + ID_OFFSET) ID_SIZE,
        readBytes p (off + USERNAME_OFFSET) USERNAME_SIZE,
        readBytes p (off + EMAIL_OFFSET) EMAIL_SIZE with
  | some idb, some ub, some eb => some ⟨u32_of_bytes idb, ub, eb⟩
  | _, _, _ => none

/-! Insertion (src/db.cpp lines 345-369 and 469-485). -/

/-- The shift loop of leaf_node_insert: for i from num_cells down to
cell_num + 1, copy cell i-1 over cell i.  The counter k is the number of
cells still to move. -/
def shiftLoop (node : Page) (cell_num : Nat) : Nat → Option Page
  | 0 => some node
  | k + 1 =>
    match readBytes node (leaf_node_cell_off (cell_num + k)) LEAF_NODE_CELL_SIZE with
    | some cellBytes =>
      match writeBytes node (leaf_node_cell_off (cell_num + k + 1)) cellBytes with
      | some node1 => shiftLoop node1 cell_num k
      | none => none
    | none => none

/-- leaf_node_insert (src/db.cpp lines 345-369): re-reads the cell count,
exits fatally (none) on a full node, shifts cells right of the cursor,
increments the cell count, then writes the key and the serialized row into
the cursor's cell. -/
def leaf_node_insert (fresh : Page) (pager : Pager) (cursor : Cursor)
    (key : Nat) (r : Row) : Option Pager :=
  match get_page fresh pager cursor.page_num with
  | .ok pager1 node =>
    match read_num_cells node with
    | some num_cells =>
      if num_cells ≥ LEAF_NODE_MAX_CELLS then none
      else
        match shiftLoop node cursor.cell_num (num_cells - cursor.cell_num) with
        | some node1 =>
          match write_num_cells node1 (num_cells + 1) with
          | some node2 =>
            match write_u32 node2 (leaf_node_cell_off cursor.cell_num) key with
            | some node3 =>
              match serializeRowAt r node3 (leaf_node_value_off cursor.cell_num) with
              | some node4 => some (update_page pager1 cursor.page_num node4)
              | none => none
            | none => none
          | none => none
        | none => none
    | none => none
  | _ => none

/-- executeInsert (src/db.cpp lines 469-485): table-full when the root's
cell count has reached LEAF_NODE_MAX_CELLS, otherwise a tail insert through
an end-of-table cursor. -/
def executeInsert (fresh : Page) (r : Row) (t : Table) :
    Option (Pager × ExecuteResult) :=
  match get_page fresh t.pager t.root_page_num with
  | .ok pager1 node =>
    match read_num_cells node with
    | some c =>
      if c ≥ LEAF_NODE_MAX_CELLS then some (pager1, .EXECUTE_TABLE_FULL)
      else
        match tableEnd fresh ⟨pager1, t.root_page_num⟩ with
        | some (pager2, cursor) =>
          match leaf_node_insert fresh pager2 cursor r.id r with
          | some pager3 => some (pager3, .EXECUTE_SUCCESS)
          | none => none
        | none => none
    | none => none
  | _ => none

/-! Scanning (src/db.cpp lines 371-390 and 487-502). -/

/-- One round of the executeSelect loop: deserialize the row under the
cursor (cursorValue), then cursorAdvance.  The fuel argument bounds the
iteration count; executeSelect passes the root's cell count, which is
exactly the number of rounds the loop performs, so the fuel never runs
out on the paths the engine takes. -/
def selectLoop (fresh : Page) (pager : Pager) (cursor : Cursor) :
    Nat → Option (Pager × List Row)
  | 0 => if cursor.endOfTable then some (pager, []) else none
  | fuel1 + 1 =>
    if cursor.endOfTable then some (pager, [])
    else
      match get_page fresh pager cursor.page_num with
      | .ok pager1 node =>
        match deserializeRowAt node (leaf_node_value_off cursor.cell_num) with
        | some row =>
          match get_page fresh pager1 cursor.page_num with
          | .ok pager2 node1 =>
            match read_num_cells node1 with
            | some c =>
              match selectLoop fresh pager2
                  ⟨cursor.page_num, cursor.cell_num + 1,
                    cursor.endOfTable || decide (c ≤ cursor.cell_num + 1)⟩ fuel1 with
              | some (pager3, rows) => some (pager3, row :: rows)
              | none => none
            | none => none
          | _ => none
        | _ => none
      | _ => none

/-- executeSelect (src/db.cpp lines 487-502): walk a cursor from the start
of the table, deserializing every cell, and return EXECUTE_SUCCESS.  The
root's cell count is read once more to supply the loop bound. -/
def executeSelect (fresh : Page) (t : Table) :
    Option (Pager × ExecuteResult × List Row) :=
  match tableStart fresh t with
  | some (pager1, cursor) =>
    match get_page fresh pager1 t.root_page_num with
    | .ok pager2 node =>
      match read_num_cells node with
      | some c =>
        match selectLoop fresh pager2 cursor c with
        | some (pager3, rows) => some (pager3, .EXECUTE_SUCCESS, rows)
        | none => none
      | none => none
    | _ => none
  | none => none

/-- Number of resident pages among the TABLE_MAX_PAGES array slots. -/
def residentCount (pager : Pager) : Nat :=
  (List.range TABLE_MAX_PAGES).countP (fun k => (pager.pages k).isSome)

/-! Concrete scenario inputs. -/

/-- An all-zero malloc buffer (one possible content of a fresh buffer). -/
def zeroPage : Page := fun _ => 0

/-- An empty backing file. -/
def emptyFile : Nat → Nat := fun _ => 0

/-- A well-formed row: id 1, username the C string bob (NUL padded to the
USERNAME_SIZE array), empty email. -/
def rowBob : Row :=
  ⟨1, [98, 111, 98] ++ List.replicate 30 0, List.replicate 256 0⟩

/-- A pager as produced by pager_open on an empty file. -/
def pagerEmpty : Pager := ⟨0, 0, fun _ => none, emptyFile⟩

/-- A resident root page whose cell-count field (as the accessor places it,
bytes 24..27) holds 14, one more than LEAF_NODE_MAX_CELLS. -/
def pageFourteen : Page := fun i => if i = 24 then 14 else 0

/-- A pager holding pageFourteen as its only resident page. -/
def pagerFourteen : Pager :=
  ⟨PAGE_SIZE, 1, fun k => if k = 0 then some pageFourteen else none, emptyFile⟩

/-- A pager holding the all-zero page as its resident root. -/
def pagerZeroRoot : Pager :=
  ⟨PAGE_SIZE, 1, fun k => if k = 0 then some zeroPage else none, emptyFile⟩

/-- C1: refuted on the code.  The claim asks that after N successful
inserts into an empty table the root cell count equal N.  After one
successful insert of rowBob the cell count reads 0, not 1: the accessor
leaf_node_num_cells addresses bytes 24..27 (uint32_t pointer arithmetic),
which lie inside cell 0, so serializing the row's username bytes over cell
0 overwrites the just-incremented count. -/
theorem first_insert_cell_count_not_one :
    ((db_open zeroPage emptyFile 0).bind (fun t =>
      (executeInsert zeroPage rowBob t).bind (fun pr =>
        (pr.1.pages 0).bind (fun node =>
          (read_num_cells node).map (fun c => (pr.2, c))))))
      = some (.EXECUTE_SUCCESS, 0) ∧ (0 : Nat) ≠ 1 := by
  exact ⟨by decide, by decide⟩

/-- C2: refuted on the code.  The claim puts the cell-count field at byte
offset 6 (right after the 1+1+4 byte common header) and disjoint from the
cells, which start at byte 10.  The accessor actually dereferences
(uint32_t *)node + 6, i.e. byte offset 24, which is not 6 and lies inside
cell 0 (bytes 10..306); writing the count through the accessor changes byte
24 and leaves bytes 6..9 untouched. -/
theorem num_cells_accessor_misplaced :
    leaf_node_num_cells_byte_off = 24 ∧
    COMMON_NODE_HEADER_SIZE = 6 ∧
    leaf_node_num_cells_byte_off ≠ COMMON_NODE_HEADER_SIZE ∧
    LEAF_NODE_HEADER_SIZE ≤ leaf_node_num_cells_byte_off ∧
    leaf_node_num_cells_byte_off + LEAF_NODE_NUM_CELLS_SIZE ≤
      leaf_node_cell_off 0 + LEAF_NODE_CELL_SIZE ∧
    leaf_node_cell_off 0 ≤ leaf_node_num_cells_byte_off ∧
    ((write_num_cells zeroPage 7).map (fun p => (p 24, p 6))) = some (7, 0) := by
  refine ⟨rfl, rfl, by decide, by decide, by decide, by decide, by decide⟩

/-- C3: refuted on the code.  The claim asks that every get_page call with
page_num ≥ TABLE_MAX_PAGES = 100 abort the process.  The source's guard is
page_num > TABLE_MAX_PAGES, so page_num = 100 passes the guard and the
code indexes pages[100], one slot past the end of the 100-element array
(undefined behavior), instead of aborting; only page_num = 101 and above
abort. -/
theorem get_page_bound_check_off_by_one :
    TABLE_MAX_PAGES = 100 ∧
    get_page zeroPage pagerEmpty 100 = .oob ∧
    GetPageResult.oob ≠ GetPageResult.fatal ∧
    get_page zeroPage pagerEmpty 101 = .fatal := by
  refine ⟨rfl, rfl, fun h => GetPageResult.noConfusion h, rfl⟩

/-- C4: refuted on the code.  The claim asks that a scan after a sequence
of successful inserts yield exactly the inserted rows in order.  Inserting
the single row rowBob succeeds, but the row's username bytes overwrite the
misplaced cell-count field with 0, so the following scan believes the
table is empty and yields no rows at all. -/
theorem scan_after_insert_loses_row :
    ((db_open zeroPage emptyFile 0).bind (fun t =>
      (executeInsert zeroPage rowBob t).bind (fun pr =>
        (executeSelect zeroPage ⟨pr.1, 0⟩).map (fun x => (x.2.1, x.2.2)))))
      = some (.EXECUTE_SUCCESS, ([] : List Row)) ∧
    ([] : List Row) ≠ [rowBob] := by
  exact ⟨by decide, by decide⟩

/-- C8: confirmed.  The serialized row width is 4 + 33 + 256 = 293 bytes,
a leaf cell is 297 bytes, the leaf header is 10 bytes, and
LEAF_NODE_MAX_CELLS = (4096 - 10) / 297 = 13. -/
theorem layout_constants_as_specified :
    ROW_SIZE = 293 ∧
    LEAF_NODE_CELL_SIZE = 297 ∧
    LEAF_NODE_HEADER_SIZE = 10 ∧
    LEAF_NODE_MAX_CELLS = (PAGE_SIZE - LEAF_NODE_HEADER_SIZE) / LEAF_NODE_CELL_SIZE ∧
    LEAF_NODE_MAX_CELLS = 13 := by
  refine ⟨rfl, rfl, rfl, rfl, rfl⟩

/-- C6 counterexample: the node-type byte of the freshly created root is
never written.  Opening an empty database with an all-zero malloc buffer
leaves byte 0 of page 0 at 0 = NODE_INTERNAL, not NODE_LEAF = 1, so the
fresh root is not tagged as a leaf node. -/
theorem db_open_node_type_not_leaf :
    ((db_open zeroPage emptyFile 0).bind (fun t =>
      (t.pager.pages 0).map (fun node => node NODE_TYPE_OFFSET)))
      = some NODE_INTERNAL ∧ NODE_INTERNAL ≠ NODE_LEAF := by
  exact ⟨by decide, by decide⟩

/-! Helper lemmas about the embedding. -/

/-- Numeric value of the leaf value offset. -/
theorem leaf_node_value_off_eq (k : Nat) : leaf_node_value_off k = 14 + 297 * k := by
  simp [leaf_node_value_off, leaf_node_cell_off, LEAF_NODE_HEADER_SIZE,
    LEAF_NODE_CELL_SIZE, LEAF_NODE_KEY_SIZE, LEAF_NODE_VALUE_SIZE, ROW_SIZE,
    ID_SIZE, USERNAME_SIZE, EMAIL_SIZE, COLUMN_USERNAME_SIZE, COLUMN_EMAIL_SIZE,
    COMMON_NODE_HEADER_SIZE, NODE_TYPE_SIZE, IS_ROOT_SIZE, PARENT_POINTER_SIZE,
    LEAF_NODE_NUM_CELLS_SIZE]
  omega

/-- Reading a byte range that fits inside the page succeeds and returns as
many bytes as requested. -/
theorem readBytes_some (p : Page) :
    ∀ (n off : Nat), off + n ≤ PAGE_SIZE →
      ∃ bs, readBytes p off n = some bs ∧ bs.length = n := by
  intro n
  induction n with
  | zero => exact fun off _ => ⟨[], rfl, rfl⟩
  | succ m ih =>
    intro off h
    obtain ⟨bs, hbs, hlen⟩ := ih (off + 1) (by omega)
    have hoff : off < PAGE_SIZE := by omega
    refine ⟨p off :: bs, ?_, by simp [hlen]⟩
    unfold readBytes
    rw [show readByte p off = some (p off) from by simp [readByte, hoff], hbs]

/-- Reading a nonempty byte range that sticks out of the page fails. -/
theorem readBytes_none (p : Page) :
    ∀ (n off : Nat), PAGE_SIZE < off + n → 1 ≤ n → readBytes p off n = none := by
  intro n
  induction n with
  | zero => omega
  | succ m ih =>
    intro off h _
    by_cases hoff : off < PAGE_SIZE
    · have hm : 1 ≤ m := by omega
      unfold readBytes
      rw [show readByte p off = some (p off) from by simp [readByte, hoff],
        ih (off + 1) (by omega) hm]
    · unfold readBytes
      rw [show readByte p off = none from by simp [readByte]; omega]

/-- Deserializing a row whose bytes fit inside the page succeeds. -/
theorem deserializeRowAt_some (p : Page) (off : Nat)
    (h : off + ROW_SIZE ≤ PAGE_SIZE) : ∃ r, deserializeRowAt p off = some r := by
  have hrow : (293 : Nat) = ROW_SIZE := rfl
  obtain ⟨idb, h1, _⟩ := readBytes_some p ID_SIZE (off + ID_OFFSET)
    (by simp [ID_OFFSET, ID_SIZE]; omega)
  obtain ⟨ub, h2, _⟩ := readBytes_some p USERNAME_SIZE (off + USERNAME_OFFSET)
    (by simp [USERNAME_OFFSET, USERNAME_SIZE, ID_OFFSET, ID_SIZE,
        COLUMN_USERNAME_SIZE]; omega)
  obtain ⟨eb, h3, _⟩ := readBytes_some p EMAIL_SIZE (off + EMAIL_OFFSET)
    (by simp [EMAIL_OFFSET, EMAIL_SIZE, USERNAME_OFFSET, USERNAME_SIZE,
        ID_OFFSET, ID_SIZE, COLUMN_USERNAME_SIZE, COLUMN_EMAIL_SIZE]; omega)
  exact ⟨_, by unfold deserializeRowAt; rw [h1, h2, h3]⟩

/-- Deserializing a row whose email bytes stick out of the page fails. -/
theorem deserializeRowAt_none (p : Page) (off : Nat)
    (h : PAGE_SIZE < off + ROW_SIZE) : deserializeRowAt p off = none := by
  have hrow : ROW_SIZE = 293 := rfl
  have h3 : readBytes p (off + EMAIL_OFFSET) EMAIL_SIZE = none := by
    apply readBytes_none
    · simp [EMAIL_OFFSET, EMAIL_SIZE, USERNAME_OFFSET, USERNAME_SIZE,
        ID_OFFSET, ID_SIZE, COLUMN_USERNAME_SIZE, COLUMN_EMAIL_SIZE]
      omega
    · simp [EMAIL_SIZE, COLUMN_EMAIL_SIZE]
  rcases h1 : readBytes p (off + ID_OFFSET) ID_SIZE with _ | idb <;>
    rcases h2 : readBytes p (off + USERNAME_OFFSET) USERNAME_SIZE with _ | ub <;>
      · unfold deserializeRowAt
        rw [h1, h2, h3]

/-- get_page on a resident page below the array bound is the identity on
the pager and returns the resident buffer. -/
theorem get_page_resident (fresh : Page) (pg : Pager) (n : Nat) (node : Page)
    (hn : n < TABLE_MAX_PAGES) (hres : pg.pages n = some node) :
    get_page fresh pg n = .ok pg node := by
  unfold get_page
  rw [if_neg (by omega), if_neg (by omega), hres]

/-- When the root is resident with a cell count of c ≤ LEAF_NODE_MAX_CELLS,
the select loop visits the remaining cells without touching the pager and
returns one row per remaining cell. -/
theorem selectLoop_complete (fresh : Page) (pg : Pager) (root : Nat) (node : Page)
    (c : Nat) (hroot : root < TABLE_MAX_PAGES) (hres : pg.pages root = some node)
    (hc : read_num_cells node = some c) (hcm : c ≤ LEAF_NODE_MAX_CELLS) :
    ∀ (m k : Nat), k + m = c →
      ∃ rows, selectLoop fresh pg ⟨root, k, decide (c ≤ k)⟩ m = some (pg, rows) ∧
        rows.length = m := by
  have hgp := get_page_resident fresh pg root node hroot hres
  have hmax : LEAF_NODE_MAX_CELLS = 13 := rfl
  intro m
  induction m with
  | zero =>
    intro k hk
    have hend : decide (c ≤ k) = true := by simp; omega
    exact ⟨[], by unfold selectLoop; rw [hend]; rfl, rfl⟩
  | succ m ih =>
    intro k hk
    have hend : decide (c ≤ k) = false := by simp; omega
    have hub : leaf_node_value_off k + ROW_SIZE ≤ PAGE_SIZE := by
      rw [leaf_node_value_off_eq]
      have : ROW_SIZE = 293 := rfl
      have : PAGE_SIZE = 4096 := rfl
      omega
    obtain ⟨row, hrow⟩ := deserializeRowAt_some node (leaf_node_value_off k) hub
    obtain ⟨rows, hsl, hlen⟩ := ih (k + 1) (by omega)
    refine ⟨row :: rows, ?_, by simp [hlen]⟩
    unfold selectLoop
    simp only [hend, Bool.false_eq_true, if_false, hgp, hrow, hc, Bool.false_or]
    rw [hsl]

/-- When the root's cell count c exceeds LEAF_NODE_MAX_CELLS, the select
loop eventually dereferences cell LEAF_NODE_MAX_CELLS, whose bytes stick
out of the page, and fails. -/
theorem selectLoop_overrun (fresh : Page) (pg : Pager) (root : Nat) (node : Page)
    (c : Nat) (hroot : root < TABLE_MAX_PAGES) (hres : pg.pages root = some node)
    (hc : read_num_cells node = some c) (hcm : LEAF_NODE_MAX_CELLS < c) :
    ∀ (m k fuel : Nat), k + m = LEAF_NODE_MAX_CELLS + 1 → 1 ≤ m → m ≤ fuel →
      selectLoop fresh pg ⟨root, k, decide (c ≤ k)⟩ fuel = none := by
  have hgp := get_page_resident fresh pg root node hroot hres
  have hmax : LEAF_NODE_MAX_CELLS = 13 := rfl
  intro m
  induction m with
  | zero => omega
  | succ m ih =>
    intro k fuel hk _ hfuel
    have hend : decide (c ≤ k) = false := by simp; omega
    obtain ⟨fuel1, rfl⟩ : ∃ f, fuel = f + 1 := ⟨fuel - 1, by omega⟩
    cases m with
    | zero =>
      have hk13 : k = LEAF_NODE_MAX_CELLS := by omega
      have hoob : deserializeRowAt node (leaf_node_value_off k) = none := by
        apply deserializeRowAt_none
        rw [leaf_node_value_off_eq]
        have : ROW_SIZE = 293 := rfl
        have : PAGE_SIZE = 4096 := rfl
        omega
      unfold selectLoop
      simp only [hend, Bool.false_eq_true, if_false, hgp, hoob]
    | succ m1 =>
      have hub : leaf_node_value_off k + ROW_SIZE ≤ PAGE_SIZE := by
        rw [leaf_node_value_off_eq]
        have : ROW_SIZE = 293 := rfl
        have : PAGE_SIZE = 4096 := rfl
        omega
      obtain ⟨row, hrow⟩ := deserializeRowAt_some node (leaf_node_value_off k) hub
      have hrec := ih (k + 1) fuel1 (by omega) (by omega) (by omega)
      unfold selectLoop
      simp only [hend, Bool.false_eq_true, if_false, hgp, hrow, hc, Bool.false_or]
      rw [hrec]

/-- C10 counterexample: a scan is not total and success on every table
state.  On a table whose root cell count reads 14, one more than
LEAF_NODE_MAX_CELLS (a value the insert bug can leave behind), the scan
dereferences cell 13, whose bytes 3871..4167 extend past the 4096-byte
page buffer, so the scan performs an out-of-bounds read (none) instead of
returning the success code. -/
theorem select_oob_read_on_overfull_count :
    read_num_cells pageFourteen = some 14 ∧
    executeSelect zeroPage ⟨pagerFourteen, 0⟩ = none := by
  have hres : pagerFourteen.pages 0 = some pageFourteen := rfl
  have hroot : (0 : Nat) < TABLE_MAX_PAGES := by decide
  have hc : read_num_cells pageFourteen = some 14 := by decide
  have hgp := get_page_resident zeroPage pagerFourteen 0 pageFourteen hroot hres
  have hov := selectLoop_overrun zeroPage pagerFourteen 0 pageFourteen 14 hroot hres hc
    (by decide) 14 0 14 (by decide) (by decide) (by decide)
  have hov1 : selectLoop zeroPage pagerFourteen ⟨0, 0, false⟩ 14 = none := by
    simpa using hov
  refine ⟨hc, ?_⟩
  simp only [executeSelect, tableStart, hgp, hc,
    show ((14 : Nat) == 0) = false from rfl]
  rw [hov1]

/-- C10 amended: for every table whose root page number is within the page
array and whose root page is resident with a cell count of at most
LEAF_NODE_MAX_CELLS, executeSelect is total and read-only: it returns the
pager completely unchanged (every resident page byte, the residency map and
the known page count included), reports EXECUTE_SUCCESS, and yields one row
per cell. -/
theorem select_readonly_success_of_count_le_max :
    ∀ (fresh : Page) (t : Table) (node : Page) (c : Nat),
      t.root_page_num < TABLE_MAX_PAGES →
      t.pager.pages t.root_page_num = some node →
      read_num_cells node = some c →
      c ≤ LEAF_NODE_MAX_CELLS →
      ∃ rows, executeSelect fresh t = some (t.pager, .EXECUTE_SUCCESS, rows) ∧
        rows.length = c := by
  intro fresh t node c hroot hres hc hcm
  have hgp := get_page_resident fresh t.pager t.root_page_num node hroot hres
  obtain ⟨rows, hsl, hlen⟩ := selectLoop_complete fresh t.pager t.root_page_num
    node c hroot hres hc hcm c 0 (by omega)
  refine ⟨rows, ?_, hlen⟩
  have hflag : (c == 0) = decide (c ≤ 0) := by cases c <;> simp
  simp only [executeSelect, tableStart, hgp, hc, hflag]
  rw [hsl]

/-- Witness for the amended C10 statement: on a concrete resident root
with cell count 0 the scan returns success with zero rows. -/
theorem select_readonly_success_witness :
    (executeSelect zeroPage ⟨pagerZeroRoot, 0⟩).map
      (fun x => (x.2.1, x.2.2.length)) = some (.EXECUTE_SUCCESS, 0) := by
  obtain ⟨rows, hsel, hlen⟩ := select_readonly_success_of_count_le_max zeroPage
    ⟨pagerZeroRoot, 0⟩ zeroPage 0 (by decide) rfl (by decide) (by decide)
  rw [hsel]
  simp [hlen]

/-- Length of the logical C string held by a char array: the bytes before
the first NUL. -/
def c_string_len (l : List Nat) : Nat :=
  (l.takeWhile (fun b => b != 0)).length

/-- Decoding the four little-endian bytes of a uint32_t value gives the
value back. -/
theorem u32_round_trip (v : Nat) (h : v < 4294967296) :
    u32_of_bytes (u32_bytes v) = v := by
  simp [u32_bytes, u32_of_bytes]
  omega

/-- C5: confirmed.  For every Row struct (uint32_t id, USERNAME_SIZE-byte
username array, EMAIL_SIZE-byte email array) whose logical username string
is at most COLUMN_USERNAME_SIZE = 32 bytes long and whose logical email
string is at most COLUMN_EMAIL_SIZE = 255 bytes long, deserializing the
serialized image restores the row on all three fields. -/
theorem deserialize_serialize_round_trip :
    ∀ r : Row, r.id < 4294967296 → r.username.length = USERNAME_SIZE →
      r.email.length = EMAIL_SIZE →
      c_string_len r.username ≤ COLUMN_USERNAME_SIZE →
      c_string_len r.email ≤ COLUMN_EMAIL_SIZE →
      deserializeRow (serializeRow r) = r := by
  rintro ⟨id, u, e⟩ hid hu he _ _
  simp only at hid hu he
  have hu33 : u.length = 33 := by
    simpa [USERNAME_SIZE, COLUMN_USERNAME_SIZE] using hu
  have he256 : e.length = 256 := by
    simpa [EMAIL_SIZE, COLUMN_EMAIL_SIZE] using he
  have h4 : (u32_bytes id).length = 4 := rfl
  unfold serializeRow deserializeRow
  simp only [ID_OFFSET, ID_SIZE, USERNAME_OFFSET, EMAIL_OFFSET, USERNAME_SIZE,
    EMAIL_SIZE, COLUMN_USERNAME_SIZE, COLUMN_EMAIL_SIZE, Row.mk.injEq,
    Nat.reduceAdd, Nat.add_zero, Nat.zero_add]
  refine ⟨?_, ?_, ?_⟩
  · rw [List.drop_zero, List.append_assoc, List.take_left' h4,
      u32_round_trip id hid]
  · rw [List.append_assoc, List.drop_left' h4, List.take_left' hu33]
  · rw [List.drop_left' (by simp [u32_bytes, hu33] : (u32_bytes id ++ u).length = 37),
      ← he256, List.take_length]

/-- Witness for the round-trip statement at a concrete in-bounds row. -/
theorem deserialize_serialize_round_trip_witness :
    deserializeRow (serializeRow rowBob) = rowBob :=
  deserialize_serialize_round_trip rowBob (by decide) (by decide) (by decide)
    (by decide) (by decide)

/-- A pager whose residency map holds exactly page 0 has resident count
one. -/
theorem residentCount_eq_one (pg : Pager)
    (h : ∀ k, (pg.pages k).isSome = (k == 0)) : residentCount pg = 1 := by
  unfold residentCount
  exact (@List.countP_congr Nat (fun k => (pg.pages k).isSome) (fun k => k == 0)
    (List.range TABLE_MAX_PAGES) (fun k _ => by simp only []; rw [h k])).trans
    (by decide)

/-- C6 amended: opening a zero-length database leaves exactly one resident
page, page 0, with cell count 0; the node-type byte is never written and
keeps whatever content the fresh allocation held, so the page is not
positively tagged as a leaf. -/
theorem db_open_empty_file_state :
    ∀ (fresh : Page) (file : Nat → Nat),
      ∃ t node, db_open fresh file 0 = some t ∧
        t.root_page_num = 0 ∧
        t.pager.numPages = 1 ∧
        residentCount t.pager = 1 ∧
        t.pager.pages 0 = some node ∧
        read_num_cells node = some 0 ∧
        node NODE_TYPE_OFFSET = fresh NODE_TYPE_OFFSET := by
  intro fresh file
  refine ⟨_, _, rfl, rfl, rfl, ?_, rfl,
    by with_unfolding_all rfl, by with_unfolding_all rfl⟩
  refine residentCount_eq_one _ (fun k => ?_)
  by_cases hk : k = 0 <;>
    simp [db_open, pager_open, get_page, update_page, init_leaf_node, hk]

/-- Witness for the amended C6 statement at a concrete allocation. -/
theorem db_open_empty_file_state_witness :
    ((db_open zeroPage emptyFile 0).map (fun t =>
      (t.root_page_num, t.pager.numPages, residentCount t.pager))) = some (0, 1, 1) := by
  obtain ⟨t, node, h1, h2, h3, h4, _, _, _⟩ :=
    db_open_empty_file_state zeroPage emptyFile
  rw [h1]
  simp [h2, h3, h4]

/-- C7: confirmed.  pager_open aborts exactly when the observed file
length is not a whole number of PAGE_SIZE pages; on success the recorded
known page count is file_length / PAGE_SIZE. -/
theorem pager_open_corrupt_iff :
    ∀ (file : Nat → Nat) (len : Nat),
      (pager_open file len = none ↔ len % PAGE_SIZE ≠ 0) ∧
      (pager_open file len).elim True (fun p => p.numPages = len / PAGE_SIZE) := by
  intro file len
  unfold pager_open
  by_cases h : len % PAGE_SIZE = 0 <;> simp [h]

/-- Witness for the pager_open characterization: a two-page file opens,
and a 100-byte file is rejected as corrupt. -/
theorem pager_open_corrupt_iff_witness :
    pager_open emptyFile 8192 ≠ none ∧ pager_open emptyFile 100 = none := by
  constructor
  · intro h
    exact (pager_open_corrupt_iff emptyFile 8192).1.mp h (by decide)
  · exact (pager_open_corrupt_iff emptyFile 100).1.mpr (by decide)

/-- update_page does not change the known page count. -/
theorem update_page_numPages (pg : Pager) (n : Nat) (p : Page) :
    (update_page pg n p).numPages = pg.numPages := rfl

/-- Each successful get_page call leaves the known page count unchanged or
bumps it by exactly one. -/
theorem get_page_numPages_step (fresh : Page) (pg : Pager) (n : Nat)
    (pg1 : Pager) (page : Page) (h : get_page fresh pg n = .ok pg1 page) :
    pg1.numPages = pg.numPages ∨ pg1.numPages = pg.numPages + 1 := by
  unfold get_page at h
  split at h
  · exact GetPageResult.noConfusion h
  split at h
  · exact GetPageResult.noConfusion h
  split at h
  · injection h with h1 h2
    subst h1
    exact Or.inl rfl
  · injection h with h1 h2
    subst h1
    by_cases hn : n ≥ pg.numPages <;> simp [hn]

/-- A successful get_page call never lowers the known page count. -/
theorem get_page_numPages_le (fresh : Page) (pg : Pager) (n : Nat)
    (pg1 : Pager) (page : Page) (h : get_page fresh pg n = .ok pg1 page) :
    pg.numPages ≤ pg1.numPages := by
  rcases get_page_numPages_step fresh pg n pg1 page h with h1 | h1 <;> omega

/-- tableStart never lowers the known page count. -/
theorem tableStart_numPages_le (fresh : Page) (t : Table) (pg1 : Pager)
    (cur : Cursor) (h : tableStart fresh t = some (pg1, cur)) :
    t.pager.numPages ≤ pg1.numPages := by
  unfold tableStart at h
  cases hg : get_page fresh t.pager t.root_page_num with
  | fatal => rw [hg] at h; exact Option.noConfusion h
  | oob => rw [hg] at h; exact Option.noConfusion h
  | ok pg2 node =>
    simp only [hg] at h
    cases hc : read_num_cells node with
    | none => rw [hc] at h; exact Option.noConfusion h
    | some c =>
      simp only [hc] at h
      injection h with h1
      have h2 : pg2 = pg1 := congrArg Prod.fst h1
      subst h2
      exact get_page_numPages_le fresh t.pager t.root_page_num pg2 node hg

/-- tableEnd never lowers the known page count. -/
theorem tableEnd_numPages_le (fresh : Page) (t : Table) (pg1 : Pager)
    (cur : Cursor) (h : tableEnd fresh t = some (pg1, cur)) :
    t.pager.numPages ≤ pg1.numPages := by
  unfold tableEnd at h
  cases hg : get_page fresh t.pager t.root_page_num with
  | fatal => rw [hg] at h; exact Option.noConfusion h
  | oob => rw [hg] at h; exact Option.noConfusion h
  | ok pg2 node =>
    simp only [hg] at h
    cases hc : read_num_cells node with
    | none => rw [hc] at h; exact Option.noConfusion h
    | some c =>
      simp only [hc] at h
      injection h with h1
      have h2 : pg2 = pg1 := congrArg Prod.fst h1
      subst h2
      exact get_page_numPages_le fresh t.pager t.root_page_num pg2 node hg

/-- leaf_node_insert never lowers the known page count. -/
theorem leaf_node_insert_numPages_le (fresh : Page) (pg : Pager) (cur : Cursor)
    (key : Nat) (r : Row) (pg1 : Pager)
    (h : leaf_node_insert fresh pg cur key r = some pg1) :
    pg.numPages ≤ pg1.numPages := by
  unfold leaf_node_insert at h
  cases hg : get_page fresh pg cur.page_num with
  | fatal => rw [hg] at h; exact Option.noConfusion h
  | oob => rw [hg] at h; exact Option.noConfusion h
  | ok pg2 node =>
    simp only [hg] at h
    cases hc : read_num_cells node with
    | none => rw [hc] at h; exact Option.noConfusion h
    | some c =>
      simp only [hc] at h
      by_cases hfull : c ≥ LEAF_NODE_MAX_CELLS
      · rw [if_pos hfull] at h
        exact Option.noConfusion h
      rw [if_neg hfull] at h
      cases hs : shiftLoop node cur.cell_num (c - cur.cell_num) with
      | none => rw [hs] at h; exact Option.noConfusion h
      | some n1 =>
        simp only [hs] at h
        cases hw1 : write_num_cells n1 (c + 1) with
        | none => rw [hw1] at h; exact Option.noConfusion h
        | some n2 =>
          simp only [hw1] at h
          cases hw2 : write_u32 n2 (leaf_node_cell_off cur.cell_num) key with
          | none => rw [hw2] at h; exact Option.noConfusion h
          | some n3 =>
            simp only [hw2] at h
            cases hw3 : serializeRowAt r n3 (leaf_node_value_off cur.cell_num) with
            | none => rw [hw3] at h; exact Option.noConfusion h
            | some n4 =>
              simp only [hw3] at h
              injection h with h1
              rw [← h1, update_page_numPages]
              exact get_page_numPages_le fresh pg cur.page_num pg2 node hg

/-- executeInsert never lowers the known page count. -/
theorem executeInsert_numPages_le (fresh : Page) (r : Row) (t : Table)
    (pg1 : Pager) (res : ExecuteResult)
    (h : executeInsert fresh r t = some (pg1, res)) :
    t.pager.numPages ≤ pg1.numPages := by
  unfold executeInsert at h
  cases hg : get_page fresh t.pager t.root_page_num with
  | fatal => rw [hg] at h; exact Option.noConfusion h
  | oob => rw [hg] at h; exact Option.noConfusion h
  | ok pg2 node =>
    simp only [hg] at h
    have hle2 := get_page_numPages_le fresh t.pager t.root_page_num pg2 node hg
    cases hc : read_num_cells node with
    | none => rw [hc] at h; exact Option.noConfusion h
    | some c =>
      simp only [hc] at h
      by_cases hfull : c ≥ LEAF_NODE_MAX_CELLS
      · rw [if_pos hfull] at h
        injection h with h1
        have h2 : pg2 = pg1 := congrArg Prod.fst h1
        subst h2
        exact hle2
      rw [if_neg hfull] at h
      cases he : tableEnd fresh ⟨pg2, t.root_page_num⟩ with
      | none => rw [he] at h; exact Option.noConfusion h
      | some pc =>
        obtain ⟨pg3, cur⟩ := pc
        simp only [he] at h
        have hle3 : pg2.numPages ≤ pg3.numPages :=
          tableEnd_numPages_le fresh ⟨pg2, t.root_page_num⟩ pg3 cur he
        cases hi : leaf_node_insert fresh pg3 cur r.id r with
        | none => rw [hi] at h; exact Option.noConfusion h
        | some pg4 =>
          simp only [hi] at h
          have hle4 : pg3.numPages ≤ pg4.numPages :=
            leaf_node_insert_numPages_le fresh pg3 cur r.id r pg4 hi
          injection h with h1
          have h2 : pg4 = pg1 := congrArg Prod.fst h1
          subst h2
          omega

/-- The select loop never lowers the known page count. -/
theorem selectLoop_numPages_le (fresh : Page) :
    ∀ (fuel : Nat) (pg : Pager) (cur : Cursor) (pg1 : Pager) (rows : List Row),
      selectLoop fresh pg cur fuel = some (pg1, rows) →
      pg.numPages ≤ pg1.numPages := by
  intro fuel
  induction fuel with
  | zero =>
    intro pg cur pg1 rows h
    unfold selectLoop at h
    cases hend : cur.endOfTable with
    | false =>
      rw [hend, if_neg (by simp : ¬(false = true))] at h
      exact Option.noConfusion h
    | true =>
      rw [hend, if_pos rfl] at h
      injection h with h1
      have h2 : pg = pg1 := congrArg Prod.fst h1
      subst h2
      exact Nat.le_refl _
  | succ fuel1 ih =>
    intro pg cur pg1 rows h
    unfold selectLoop at h
    cases hend : cur.endOfTable with
    | true =>
      rw [hend, if_pos rfl] at h
      injection h with h1
      have h2 : pg = pg1 := congrArg Prod.fst h1
      subst h2
      exact Nat.le_refl _
    | false =>
      rw [hend, if_neg (by simp : ¬(false = true))] at h
      cases hg : get_page fresh pg cur.page_num with
      | fatal => rw [hg] at h; exact Option.noConfusion h
      | oob => rw [hg] at h; exact Option.noConfusion h
      | ok pg2 node =>
        simp only [hg] at h
        cases hd : deserializeRowAt node (leaf_node_value_off cur.cell_num) with
        | none => rw [hd] at h; exact Option.noConfusion h
        | some row =>
          simp only [hd] at h
          cases hg2 : get_page fresh pg2 cur.page_num with
          | fatal => rw [hg2] at h; exact Option.noConfusion h
          | oob => rw [hg2] at h; exact Option.noConfusion h
          | ok pg3 node1 =>
            simp only [hg2] at h
            cases hc : read_num_cells node1 with
            | none => rw [hc] at h; exact Option.noConfusion h
            | some c =>
              simp only [hc] at h
              cases hsl : selectLoop fresh pg3
                  ⟨cur.page_num, cur.cell_num + 1,
                    false || decide (c ≤ cur.cell_num + 1)⟩ fuel1 with
              | none => rw [hsl] at h; exact Option.noConfusion h
              | some pr =>
                obtain ⟨pg4, rows1⟩ := pr
                simp only [hsl] at h
                injection h with h1
                have h2 : pg4 = pg1 := congrArg Prod.fst h1
                subst h2
                have hle1 := get_page_numPages_le fresh pg cur.page_num pg2 node hg
                have hle2 := get_page_numPages_le fresh pg2 cur.page_num pg3 node1 hg2
                have hle3 := ih pg3 _ pg4 rows1 hsl
                omega

/-- executeSelect never lowers the known page count. -/
theorem executeSelect_numPages_le (fresh : Page) (t : Table) (pg1 : Pager)
    (res : ExecuteResult) (rows : List Row)
    (h : executeSelect fresh t = some (pg1, res, rows)) :
    t.pager.numPages ≤ pg1.numPages := by
  unfold executeSelect at h
  cases hts : tableStart fresh t with
  | none => rw [hts] at h; exact Option.noConfusion h
  | some pc =>
    obtain ⟨pg2, cur⟩ := pc
    simp only [hts] at h
    have hle1 := tableStart_numPages_le fresh t pg2 cur hts
    cases hg : get_page fresh pg2 t.root_page_num with
    | fatal => rw [hg] at h; exact Option.noConfusion h
    | oob => rw [hg] at h; exact Option.noConfusion h
    | ok pg3 node =>
      simp only [hg] at h
      have hle2 := get_page_numPages_le fresh pg2 t.root_page_num pg3 node hg
      cases hc : read_num_cells node with
      | none => rw [hc] at h; exact Option.noConfusion h
      | some c =>
        simp only [hc] at h
        cases hsl : selectLoop fresh pg3 cur c with
        | none => rw [hsl] at h; exact Option.noConfusion h
        | some pr =>
          obtain ⟨pg4, rows1⟩ := pr
          simp only [hsl] at h
          have hle3 := selectLoop_numPages_le fresh c pg3 cur pg4 rows1 hsl
          injection h with h1
          have h2 : pg4 = pg1 := congrArg Prod.fst h1
          subst h2
          omega

/-- C9: confirmed.  Every successful get_page call leaves the known page
count unchanged or bumps it by exactly one, and neither engine operation
(executeInsert or executeSelect) ever lowers it. -/
theorem numPages_monotone :
    (∀ (fresh : Page) (pg : Pager) (n : Nat) (pg1 : Pager) (page : Page),
        get_page fresh pg n = .ok pg1 page →
        pg1.numPages = pg.numPages ∨ pg1.numPages = pg.numPages + 1) ∧
    (∀ (fresh : Page) (r : Row) (t : Table) (pg1 : Pager) (res : ExecuteResult),
        executeInsert fresh r t = some (pg1, res) →
        t.pager.numPages ≤ pg1.numPages) ∧
    (∀ (fresh : Page) (t : Table) (pg1 : Pager) (res : ExecuteResult)
        (rows : List Row),
        executeSelect fresh t = some (pg1, res, rows) →
        t.pager.numPages ≤ pg1.numPages) :=
  ⟨get_page_numPages_step, executeInsert_numPages_le, executeSelect_numPages_le⟩

/-- Witness for the page-count monotonicity statement on a concrete
scan. -/
theorem numPages_monotone_witness :
    pagerZeroRoot.numPages ≤
      ((executeSelect zeroPage ⟨pagerZeroRoot, 0⟩).map
        (fun x => x.1.numPages)).getD 0 := by
  have hsel : executeSelect zeroPage ⟨pagerZeroRoot, 0⟩ =
      some (pagerZeroRoot, .EXECUTE_SUCCESS, []) := by with_unfolding_all rfl
  rw [hsel]
  exact numPages_monotone.2.2 zeroPage ⟨pagerZeroRoot, 0⟩ pagerZeroRoot
    .EXECUTE_SUCCESS [] hsel
